import Mathlib

/-!
Verification of the alpenglow-vote program's vote-state transition engine.

The Rust sources are shallowly embedded: `u64`/`i64` machine integers become
`Nat`/`Int` (Rust's `saturating_add` becomes `satAdd`, `saturating_sub` on
`Nat` is ordinary truncated subtraction), accounts' byte buffers become the
structures they serialize, the slot-hashes sysvar becomes a lookup function
`Nat → Option Nat`, and the epoch schedule becomes a function `Nat → Nat`
(the schedule itself lives outside this repository).  Functions that take a
`&mut VoteState` and may fail are embedded as state-passing functions
returning `Option VoteError × VoteState`: the second component is the state
the mutable borrow holds when the function returns, whether or not an error
was returned (mirroring Rust, where mutations made before an early return
persist in the borrowed data).
-/

namespace AlpenglowVote

/-- Largest value of a Rust `u64`. -/
def U64MAX : Nat := 2 ^ 64 - 1

/-- Rust `u64::saturating_add`. -/
def satAdd (a b : Nat) : Nat := min (a + b) U64MAX

/-- Typed errors of the program (`VoteError` in `error.rs` together with the
`ProgramError` variants the embedded code paths can produce). -/
inductive VoteError
  | versionMismatch
  | missingRequiredSignature
  | voteTooOld
  | slotHashesMissingKey
  | replayBankHashMismatch
  | timestampTooOld
  | skipEndSlotLowerThanSkipStartSlot
  | skipSlotRangeContainsFinalizationVote
  | skipEndSlotExceedsCurrentSlot
  | unreachable
  | missingSlotHashesSysvar
  | invalidArgument
  | accountAlreadyInitialized
  | insufficientFunds
  | activeVoteAccountClose
  | arithmeticOverflow
  | invalidAccountData
  | tooSoonToReauthorize
deriving DecidableEq, Repr

/-- `BlockTimestamp` from `state.rs`: slot and unix timestamp of the most
recent timestamped vote. -/
structure BlockTimestamp where
  slot : Nat
  timestamp : Int
deriving DecidableEq, Repr

/-- `AuthorizedVoter` from `accounting.rs`. -/
structure AuthorizedVoter where
  epoch : Nat
  voter : Nat
deriving DecidableEq, Repr

/-- `EpochCredit` from `accounting.rs`. -/
structure EpochCredit where
  epoch : Nat
  credits : Nat
  prev_credits : Nat
deriving DecidableEq, Repr

/-- The program's `VoteState` from `state.rs` (public keys and hashes are
abstracted to `Nat`). -/
structure VoteState where
  version : Nat
  node_pubkey : Nat
  authorized_withdrawer : Nat
  commission : Nat
  authorized_voter : AuthorizedVoter
  next_authorized_voter : Option AuthorizedVoter
  epoch_credits : EpochCredit
  latest_timestamp : BlockTimestamp
  latest_notarized_slot : Nat
  latest_notarized_block_id : Nat
  latest_notarized_bank_hash : Nat
  latest_finalized_slot : Nat
  latest_finalized_block_id : Nat
  latest_finalized_bank_hash : Nat
  latest_skip_start_slot : Nat
  latest_skip_end_slot : Nat
  replayed_slot : Nat
  replayed_bank_hash : Nat
deriving DecidableEq, Repr

/-- The zeroed (`Pod`-default) `VoteState`. -/
def VoteState.zeroed : VoteState :=
  { version := 0
    node_pubkey := 0
    authorized_withdrawer := 0
    commission := 0
    authorized_voter := ⟨0, 0⟩
    next_authorized_voter := none
    epoch_credits := ⟨0, 0, 0⟩
    latest_timestamp := ⟨0, 0⟩
    latest_notarized_slot := 0
    latest_notarized_block_id := 0
    latest_notarized_bank_hash := 0
    latest_finalized_slot := 0
    latest_finalized_block_id := 0
    latest_finalized_bank_hash := 0
    latest_skip_start_slot := 0
    latest_skip_end_slot := 0
    replayed_slot := 0
    replayed_bank_hash := 0 }

/-- `InitializeAccountInstructionData` from `instruction.rs`. -/
structure InitializeAccountInstructionData where
  node_pubkey : Nat
  authorized_voter : Nat
  authorized_withdrawer : Nat
  commission : Nat
deriving DecidableEq, Repr

/-- The sysvar clock fields the embedded code reads. -/
structure Clock where
  slot : Nat
  epoch : Nat
deriving DecidableEq, Repr

/-- `VoteState::new` from `state.rs`. -/
def VoteState.new (init_data : InitializeAccountInstructionData) (clock : Clock) : VoteState :=
  { VoteState.zeroed with
    version := 1
    node_pubkey := init_data.node_pubkey
    authorized_voter := ⟨clock.epoch, init_data.authorized_voter⟩
    next_authorized_voter := none
    authorized_withdrawer := init_data.authorized_withdrawer
    commission := init_data.commission }

/-- Accessor `VoteState::latest_finalized_slot()` from `state.rs`: the raw
field with slot 0 read as "never finalized". -/
def VoteState.latestFinalizedSlotOpt (s : VoteState) : Option Nat :=
  if 0 < s.latest_finalized_slot then some s.latest_finalized_slot else none

/-- `VOTE_CREDITS_GRACE_SLOTS` from `vote_processor.rs`. -/
def VOTE_CREDITS_GRACE_SLOTS : Nat := 2

/-- `VOTE_CREDITS_MAXIMUM_PER_SLOT` from `vote_processor.rs`. -/
def VOTE_CREDITS_MAXIMUM_PER_SLOT : Nat := 16

/-- `NotarizationVoteInstructionData` from `vote_processor.rs`. -/
structure NotarizationVoteInstructionData where
  version : Nat
  slot : Nat
  block_id : Nat
  replayed_slot : Nat
  replayed_bank_hash : Nat
  timestamp : Option Int
deriving DecidableEq, Repr

/-- `FinalizationVoteInstructionData` from `vote_processor.rs`. -/
structure FinalizationVoteInstructionData where
  version : Nat
  slot : Nat
  block_id : Nat
  replayed_slot : Nat
  replayed_bank_hash : Nat
deriving DecidableEq, Repr

/-- `SkipVoteInstructionData` from `vote_processor.rs`. -/
structure SkipVoteInstructionData where
  version : Nat
  start_slot : Nat
  end_slot : Nat
deriving DecidableEq, Repr

/-- `replay_bank_hash_checks` from `vote_processor.rs`; the slot-hashes sysvar
is embedded as a total lookup `Nat → Option Nat`. -/
def replay_bank_hash_checks (replayed_slot : Nat) (bank_hash : Nat)
    (slot_hashes : Nat → Option Nat) : Option VoteError :=
  match slot_hashes replayed_slot with
  | none => some .slotHashesMissingKey
  | some h => if bank_hash ≠ h then some .replayBankHashMismatch else none

/-- `latency_to_credits` from `vote_processor.rs`. -/
def latency_to_credits (latency : Nat) : Nat :=
  let kink_lo := VOTE_CREDITS_GRACE_SLOTS
  let kink_hi := VOTE_CREDITS_MAXIMUM_PER_SLOT + VOTE_CREDITS_GRACE_SLOTS - 1
  if latency ≤ kink_lo then
    VOTE_CREDITS_MAXIMUM_PER_SLOT
  else if kink_lo < latency ∧ latency ≤ kink_hi then
    satAdd kink_hi 1 - latency
  else
    1

/-- `award_credits` from `vote_processor.rs` (the `match` on
`vote_epoch.cmp(&epoch_credits.epoch())` written as an if-chain). -/
def award_credits (vote_state : VoteState) (latest_vote_slot : Nat)
    (earned_credits : Nat) (get_epoch : Nat → Nat) : Option VoteError × VoteState :=
  let vote_epoch := get_epoch latest_vote_slot
  let ec := vote_state.epoch_credits
  if vote_epoch = ec.epoch then
    (none, { vote_state with
              epoch_credits := { ec with credits := satAdd ec.credits earned_credits } })
  else if vote_epoch < ec.epoch then
    (some .unreachable, vote_state)
  else
    (none, { vote_state with
              epoch_credits :=
                { epoch := vote_epoch
                  credits := earned_credits
                  prev_credits := satAdd ec.prev_credits ec.credits } })

/-- `process_skip_credits` from `vote_processor.rs`; the `for` loop over the
inclusive range becomes a fold over `List.range'`. -/
def process_skip_credits (vote_state : VoteState) (vote_start_slot vote_end_slot : Nat)
    (clock : Clock) (slot_hashes : Nat → Option Nat) (get_epoch : Nat → Nat) :
    Option VoteError × VoteState :=
  if vote_end_slot > clock.slot then
    (some .skipEndSlotExceedsCurrentSlot, vote_state)
  else
    let eligible_skip_start := max (satAdd vote_state.latest_skip_end_slot 1) vote_start_slot
    let slots := List.range' eligible_skip_start (vote_end_slot + 1 - eligible_skip_start)
    let acc := slots.foldl
      (fun (p : Nat × Nat) skip_slot =>
        if (slot_hashes skip_slot).isNone ∧ skip_slot ≠ clock.slot then
          (satAdd p.1 (latency_to_credits (clock.slot - skip_slot)), skip_slot)
        else p)
      (0, 0)
    award_credits vote_state acc.2 acc.1 get_epoch

/-- `process_notarization_vote` from `vote_processor.rs`, with the vote
account's data passed as the `VoteState` it holds. -/
def process_notarization_vote (vote_state : VoteState) (vote_authority : Nat)
    (clock : Clock) (slot_hashes : Nat → Option Nat) (get_epoch : Nat → Nat)
    (vote : NotarizationVoteInstructionData) : Option VoteError × VoteState :=
  if vote.version ≠ 1 then
    (some .versionMismatch, vote_state)
  else if vote_state.authorized_voter.voter ≠ vote_authority then
    (some .missingRequiredSignature, vote_state)
  else if vote.slot ≤ vote_state.latest_notarized_slot then
    (some .voteTooOld, vote_state)
  else
    match replay_bank_hash_checks vote.slot vote.replayed_bank_hash slot_hashes with
    | some e => (some e, vote_state)
    | none =>
      let vs := { vote_state with
                   latest_notarized_slot := vote.slot
                   latest_notarized_block_id := vote.block_id
                   latest_notarized_bank_hash := vote.replayed_bank_hash }
      match vote.timestamp with
      | some ts =>
        if ts ≠ 0 ∧ vs.latest_timestamp.timestamp < ts then
          let vs := { vs with latest_timestamp := ⟨vote.slot, ts⟩ }
          award_credits vs vote.slot (clock.slot - vote.slot) get_epoch
        else
          (some .timestampTooOld, vs)
      | none => award_credits vs vote.slot (clock.slot - vote.slot) get_epoch

/-- `process_finalization_vote` from `vote_processor.rs`. -/
def process_finalization_vote (vote_state : VoteState) (vote_authority : Nat)
    (clock : Clock) (slot_hashes : Nat → Option Nat) (get_epoch : Nat → Nat)
    (vote : FinalizationVoteInstructionData) : Option VoteError × VoteState :=
  if vote.version ≠ 1 then
    (some .versionMismatch, vote_state)
  else if vote_state.authorized_voter.voter ≠ vote_authority then
    (some .missingRequiredSignature, vote_state)
  else if vote.slot ≤ vote_state.latest_finalized_slot then
    (some .voteTooOld, vote_state)
  else if vote_state.latest_skip_start_slot ≤ vote.slot ∧
      vote.slot ≤ vote_state.latest_skip_end_slot then
    (some .skipSlotRangeContainsFinalizationVote, vote_state)
  else
    match replay_bank_hash_checks vote.slot vote.replayed_bank_hash slot_hashes with
    | some e => (some e, vote_state)
    | none =>
      let vs := { vote_state with
                   latest_finalized_slot := vote.slot
                   latest_finalized_block_id := vote.block_id
                   latest_finalized_bank_hash := vote.replayed_bank_hash }
      award_credits vs vote.slot (clock.slot - vote.slot) get_epoch

/-- `process_skip_vote` from `vote_processor.rs`. -/
def process_skip_vote (vote_state : VoteState) (vote_authority : Nat)
    (clock : Clock) (slot_hashes : Nat → Option Nat) (get_epoch : Nat → Nat)
    (vote : SkipVoteInstructionData) : Option VoteError × VoteState :=
  if vote.version ≠ 1 then
    (some .versionMismatch, vote_state)
  else if vote_state.authorized_voter.voter ≠ vote_authority then
    (some .missingRequiredSignature, vote_state)
  else if vote.end_slot < vote.start_slot then
    (some .skipEndSlotLowerThanSkipStartSlot, vote_state)
  else if vote.start_slot ≤ vote_state.latest_finalized_slot ∧
      vote_state.latest_finalized_slot ≤ vote.end_slot then
    (some .skipSlotRangeContainsFinalizationVote, vote_state)
  else
    match process_skip_credits vote_state vote.start_slot vote.end_slot
        clock slot_hashes get_epoch with
    | (some e, vs) => (some e, vs)
    | (none, vs) =>
      (none, { vs with
                latest_skip_start_slot := vote.start_slot
                latest_skip_end_slot := vote.end_slot })

/-- States reachable from a freshly initialized `VoteState` by sequences of
successfully applied votes. -/
inductive Reachable : VoteState → Prop
  | init (init_data : InitializeAccountInstructionData) (clock : Clock) :
      Reachable (VoteState.new init_data clock)
  | notarize {s s' : VoteState} (a : Nat) (c : Clock) (sh : Nat → Option Nat)
      (ge : Nat → Nat) (v : NotarizationVoteInstructionData) :
      Reachable s → process_notarization_vote s a c sh ge v = (none, s') → Reachable s'
  | finalize {s s' : VoteState} (a : Nat) (c : Clock) (sh : Nat → Option Nat)
      (ge : Nat → Nat) (v : FinalizationVoteInstructionData) :
      Reachable s → process_finalization_vote s a c sh ge v = (none, s') → Reachable s'
  | skip {s s' : VoteState} (a : Nat) (c : Clock) (sh : Nat → Option Nat)
      (ge : Nat → Nat) (v : SkipVoteInstructionData) :
      Reachable s → process_skip_vote s a c sh ge v = (none, s') → Reachable s'

/-- The spec's Epoch Credit Ledger operation `record_credits(epoch, amount)`:
add to the tracked epoch's tally, or roll over to a new tracked epoch. -/
def record_credits (ec : EpochCredit) (epoch amount : Nat) : EpochCredit :=
  if epoch = ec.epoch then
    { ec with credits := satAdd ec.credits amount }
  else
    { epoch := epoch
      credits := amount
      prev_credits := satAdd ec.prev_credits ec.credits }

/-- A vote account: its lamport balance and the `VoteState` its data holds. -/
structure AccountState where
  lamports : Nat
  data : VoteState
deriving DecidableEq, Repr

/-- `VoteState::set_vote_account_state` from `state.rs`. -/
def set_vote_account_state (vote_account : AccountState) (vote_state : VoteState) :
    Option VoteError × AccountState :=
  if vote_state.authorized_voter.epoch = 0 then
    (some .invalidArgument, vote_account)
  else
    (none, { vote_account with data := vote_state })

/-- `initialize_account` from `processor.rs` (the account's data is embedded
structurally, so the byte-length guard is always satisfied). -/
def initialize_account (vote_account : AccountState)
    (init_data : InitializeAccountInstructionData) (clock : Clock) :
    Option VoteError × AccountState :=
  if 0 < vote_account.data.version then
    (some .accountAlreadyInitialized, vote_account)
  else
    set_vote_account_state vote_account (VoteState.new init_data clock)

/-- `withdraw` from `accounting.rs`; `min_rent_balance` stands for
`rent_sysvar.minimum_balance(vote_account.data_len())` and the recipient is
represented by its lamport balance.  Returns the error, the vote account and
the recipient balance after the call. -/
def withdraw (vote_account : AccountState) (recipient_lamports : Nat)
    (lamports : Nat) (withdraw_pubkey : Nat) (min_rent_balance : Nat)
    (clock : Clock) : Option VoteError × AccountState × Nat :=
  if vote_account.data.authorized_withdrawer ≠ withdraw_pubkey then
    (some .missingRequiredSignature, vote_account, recipient_lamports)
  else if vote_account.lamports < lamports then
    (some .insufficientFunds, vote_account, recipient_lamports)
  else
    let remaining_balance := vote_account.lamports - lamports
    let afterCheck : Option VoteError × AccountState :=
      if remaining_balance = 0 then
        if clock.epoch - vote_account.data.epoch_credits.epoch < 2 then
          (some .activeVoteAccountClose, vote_account)
        else
          set_vote_account_state vote_account VoteState.zeroed
      else if remaining_balance < min_rent_balance then
        (some .insufficientFunds, vote_account)
      else
        (none, vote_account)
    match afterCheck with
    | (some e, acct) => (some e, acct, recipient_lamports)
    | (none, acct) =>
      if U64MAX < recipient_lamports + lamports then
        (some .arithmeticOverflow, { acct with lamports := acct.lamports - lamports },
          recipient_lamports)
      else
        (none, { acct with lamports := acct.lamports - lamports },
          recipient_lamports + lamports)

/-- `VoteState::commission_split` from the interface crate's `state/mod.rs`,
as a function of the state's `commission` byte. -/
def commission_split (commission : Nat) (total : Nat) : Nat × Nat × Bool :=
  let split := min commission 100
  if split = 0 then (0, total, false)
  else if split = 100 then (total, 0, false)
  else
    let mine := total * split / 100
    let theirs := total * (100 - split) / 100
    (mine, theirs, true)

/-- `CircBuf` from the interface crate's `state/mod.rs` (`MAX_ITEMS = 32`);
the backing array is a 32-element list of `(pubkey, start_epoch, end_epoch)`
entries. -/
structure CircBuf where
  buf : List (Nat × Nat × Nat)
  idx : Nat
  is_empty : Bool
deriving DecidableEq, Repr

/-- `CircBuf::default`. -/
def CircBuf.empty : CircBuf :=
  ⟨List.replicate 32 (0, 0, 0), 31, true⟩

/-- `CircBuf::append`. -/
def CircBuf.append (c : CircBuf) (item : Nat × Nat × Nat) : CircBuf :=
  let idx := (c.idx + 1) % 32
  ⟨c.buf.set idx item, idx, false⟩

/-- `CircBuf::last`. -/
def CircBuf.lastEntry (c : CircBuf) : Option (Nat × Nat × Nat) :=
  if c.is_empty then none else c.buf[c.idx]?

/-- Modelled from the spec: the Authorized Voter Registry of §4.3/§4.5 backing
the interface crate's `set_new_authorized_voter` (the crate's
`authorized_voters` module is declared in `lib.rs` but its source is not in
the tree).  The registry is an epoch-keyed map of scheduled voters, embedded
as an association list; its operational semantics (exact-epoch membership,
caching of the resolved epoch, eviction of strictly older entries) is pinned
by the in-repository tests of `set_new_authorized_voter` in `state/mod.rs`. -/
def AuthorizedVoters : Type := List (Nat × Nat)

/-- Modelled from the spec: registry membership at exactly the given epoch
(`AuthorizedVoters::contains`). -/
def avContains (m : List (Nat × Nat)) (epoch : Nat) : Bool :=
  m.any fun p => p.1 = epoch

/-- Modelled from the spec: the entry with the greatest epoch
(`AuthorizedVoters::last`). -/
def avLast (m : List (Nat × Nat)) : Option (Nat × Nat) :=
  m.foldl
    (fun acc p =>
      match acc with
      | none => some p
      | some q => if q.1 ≤ p.1 then some p else some q)
    none

/-- Modelled from the spec: insert (replacing any entry at the same epoch). -/
def avInsert (m : List (Nat × Nat)) (epoch voter : Nat) : List (Nat × Nat) :=
  m.filter (fun p => p.1 ≠ epoch) ++ [(epoch, voter)]

/-- Modelled from the spec: the voter in force at an epoch is the entry with
the greatest epoch not above it. -/
def avGetOrCalc (m : List (Nat × Nat)) (epoch : Nat) : Option Nat :=
  (avLast (m.filter fun p => p.1 ≤ epoch)).map (·.2)

/-- Modelled from the spec: resolve the voter for an epoch and cache it at
that epoch (`get_and_cache_authorized_voter_for_epoch`). -/
def avGetAndCache (m : List (Nat × Nat)) (epoch : Nat) :
    Option Nat × List (Nat × Nat) :=
  match avGetOrCalc m epoch with
  | none => (none, m)
  | some pk => (some pk, if avContains m epoch then m else avInsert m epoch pk)

/-- Modelled from the spec: evict entries strictly older than the current
epoch (`purge_authorized_voters`). -/
def avPurge (m : List (Nat × Nat)) (current_epoch : Nat) : List (Nat × Nat) :=
  m.filter fun p => ¬ p.1 < current_epoch

/-- The interface crate's `VoteState` fields that voter rotation touches. -/
structure IVoteState where
  authorized_voters : List (Nat × Nat)
  prior_voters : CircBuf
deriving DecidableEq, Repr

/-- `set_new_authorized_voter` from the interface crate's `state/mod.rs`; the
`verify` callback is embedded as a function returning an optional error. -/
def set_new_authorized_voter (s : IVoteState) (authorized_pubkey : Nat)
    (current_epoch target_epoch : Nat) (verify : Nat → Option VoteError) :
    Option VoteError × IVoteState :=
  match avGetAndCache s.authorized_voters current_epoch with
  | (none, m) => (some .invalidAccountData, { s with authorized_voters := m })
  | (some epoch_authorized_voter, m) =>
    let s := { s with authorized_voters := avPurge m current_epoch }
    match verify epoch_authorized_voter with
    | some e => (some e, s)
    | none =>
      if avContains s.authorized_voters target_epoch then
        (some .tooSoonToReauthorize, s)
      else
        match avLast s.authorized_voters with
        | none => (some .invalidAccountData, s)
        | some (latest_epoch, latest_authorized_pubkey) =>
          if latest_authorized_pubkey ≠ authorized_pubkey then
            let epoch_of_last_authorized_switch :=
              ((s.prior_voters.lastEntry).map (fun r => r.2.2)).getD 0
            if target_epoch ≤ latest_epoch then
              (some .invalidAccountData, s)
            else
              let s := { s with
                          prior_voters := s.prior_voters.append
                            (latest_authorized_pubkey, epoch_of_last_authorized_switch,
                              target_epoch) }
              (none, { s with
                        authorized_voters :=
                          avInsert s.authorized_voters target_epoch authorized_pubkey })
          else
            (none, { s with
                      authorized_voters :=
                        avInsert s.authorized_voters target_epoch authorized_pubkey })

/-- The newly-covered portion of a skip vote's range that is genuinely
skipped: the slots after the previously recorded skip end (clamped to the
vote's start slot) up to its end slot that have no entry in the
observed-hash ledger and are not the current slot (spec §4.6, Skip step 5),
in increasing order. -/
def eligible_skip_slots (s : VoteState) (vote_start_slot vote_end_slot : Nat)
    (clock : Clock) (slot_hashes : Nat → Option Nat) : List Nat :=
  (List.range' (max (satAdd s.latest_skip_end_slot 1) vote_start_slot)
      (vote_end_slot + 1 - max (satAdd s.latest_skip_end_slot 1) vote_start_slot)).filter
    fun t => (slot_hashes t).isNone ∧ t ≠ clock.slot

/-- The credits a successful skip vote earns: the sum of the credit-latency
function over the eligible slots (spec §4.6, Skip step 5). -/
def skip_credit_total (s : VoteState) (vote_start_slot vote_end_slot : Nat)
    (clock : Clock) (slot_hashes : Nat → Option Nat) : Nat :=
  ((eligible_skip_slots s vote_start_slot vote_end_slot clock slot_hashes).map
    fun t => latency_to_credits (clock.slot - t)).sum

/-! Helper lemmas about the credit-award primitive. -/

theorem award_credits_preserves (s : VoteState) (l e : Nat) (g : Nat → Nat) :
    (award_credits s l e g).2.latest_notarized_slot = s.latest_notarized_slot ∧
    (award_credits s l e g).2.latest_finalized_slot = s.latest_finalized_slot ∧
    (award_credits s l e g).2.latest_skip_start_slot = s.latest_skip_start_slot ∧
    (award_credits s l e g).2.latest_skip_end_slot = s.latest_skip_end_slot ∧
    (award_credits s l e g).2.latest_timestamp = s.latest_timestamp ∧
    (award_credits s l e g).2.authorized_voter = s.authorized_voter ∧
    (award_credits s l e g).2.latest_notarized_block_id = s.latest_notarized_block_id ∧
    (award_credits s l e g).2.latest_notarized_bank_hash = s.latest_notarized_bank_hash ∧
    (award_credits s l e g).2.latest_finalized_block_id = s.latest_finalized_block_id ∧
    (award_credits s l e g).2.latest_finalized_bank_hash = s.latest_finalized_bank_hash := by
  simp only [award_credits]
  split_ifs <;> exact ⟨rfl, rfl, rfl, rfl, rfl, rfl, rfl, rfl, rfl, rfl⟩

theorem award_credits_error {s : VoteState} {l e : Nat} {g : Nat → Nat} {er : VoteError}
    {s' : VoteState} (h : award_credits s l e g = (some er, s')) :
    er = .unreachable ∧ s' = s := by
  simp only [award_credits] at h
  split_ifs at h <;> simp_all

theorem process_skip_credits_error {s s' : VoteState} {a b : Nat} {c : Clock}
    {sh : Nat → Option Nat} {g : Nat → Nat} {er : VoteError}
    (h : process_skip_credits s a b c sh g = (some er, s')) : s' = s := by
  simp only [process_skip_credits] at h
  split_ifs at h
  · exact congrArg Prod.snd h |>.symm
  · exact (award_credits_error h).2

/-- C7: for every latency `l`, `latency_to_credits` returns the maximum
credit (16) when `l ≤ 2` and `max 1 (16 - (l - 2))` when `l > 2`; it is
non-increasing in `l` and bounded between 1 and the maximum, with no failure
mode (it is a total pure function). -/
theorem latency_to_credits_spec (l k : Nat) :
    latency_to_credits l =
      (if l ≤ VOTE_CREDITS_GRACE_SLOTS then VOTE_CREDITS_MAXIMUM_PER_SLOT
       else max 1 (VOTE_CREDITS_MAXIMUM_PER_SLOT - (l - VOTE_CREDITS_GRACE_SLOTS))) ∧
    latency_to_credits (l + k) ≤ latency_to_credits l ∧
    1 ≤ latency_to_credits l ∧
    latency_to_credits l ≤ VOTE_CREDITS_MAXIMUM_PER_SLOT := by
  have h64 : U64MAX = 18446744073709551615 := by norm_num [U64MAX]
  have hval : ∀ m, latency_to_credits m = if m ≤ 2 then 16 else max 1 (16 - (m - 2)) := by
    intro m
    simp only [latency_to_credits, VOTE_CREDITS_GRACE_SLOTS, VOTE_CREDITS_MAXIMUM_PER_SLOT,
      satAdd, h64]
    split_ifs <;> omega
  refine ⟨by simp only [hval, VOTE_CREDITS_GRACE_SLOTS, VOTE_CREDITS_MAXIMUM_PER_SLOT], ?_⟩
  simp only [hval, VOTE_CREDITS_MAXIMUM_PER_SLOT]
  split_ifs <;> omega

/-- C9: for a commission percentage in `0..=100`, `commission_split` returns
an all-one-side unsplit result at 0 and 100, and otherwise the pair of
independently floored shares with `was_split = true`; the shares never exceed
the total, the discarded remainder is at most 1 when split and exactly 0 when
not split. -/
theorem commission_split_spec (commission total : Nat) (h : commission ≤ 100) :
    (commission = 0 → commission_split commission total = (0, total, false)) ∧
    (commission = 100 → commission_split commission total = (total, 0, false)) ∧
    (0 < commission → commission < 100 →
      commission_split commission total =
        (total * commission / 100, total * (100 - commission) / 100, true)) ∧
    (commission_split commission total).1 + (commission_split commission total).2.1 ≤ total ∧
    ((commission_split commission total).2.2 = true →
      total - ((commission_split commission total).1 +
        (commission_split commission total).2.1) ≤ 1) ∧
    ((commission_split commission total).2.2 = false →
      (commission_split commission total).1 + (commission_split commission total).2.1 = total) := by
  have hmin : min commission 100 = commission := Nat.min_eq_left h
  have hsum : total * commission + total * (100 - commission) = 100 * total := by
    rw [← Nat.mul_add, Nat.add_sub_cancel' h, Nat.mul_comm]
  by_cases h0 : commission = 0
  · subst h0
    have hr : commission_split 0 total = (0, total, false) := by norm_num [commission_split]
    rw [hr]
    norm_num
  · by_cases h100 : commission = 100
    · subst h100
      have hr : commission_split 100 total = (total, 0, false) := by
        norm_num [commission_split]
      rw [hr]
      norm_num
    · have hr : commission_split commission total =
          (total * commission / 100, total * (100 - commission) / 100, true) := by
        simp only [commission_split, hmin]
        rw [if_neg h0, if_neg h100]
      rw [hr]
      have hd1 := Nat.div_add_mod (total * commission) 100
      have hd2 := Nat.div_add_mod (total * (100 - commission)) 100
      have hm1 : total * commission % 100 < 100 := Nat.mod_lt _ (by omega)
      have hm2 : total * (100 - commission) % 100 < 100 := Nat.mod_lt _ (by omega)
      set a := total * commission with ha
      set b := total * (100 - commission) with hb
      refine ⟨fun hc => absurd hc h0, fun hc => absurd hc h100, fun _ _ => rfl, ?_,
        fun _ => ?_, by simp⟩ <;> (dsimp only; omega)

theorem award_credits_fst (s : VoteState) (l e : Nat) (g : Nat → Nat) :
    (award_credits s l e g).1 = none ∨
    ((award_credits s l e g).1 = some .unreachable ∧ (award_credits s l e g).2 = s) := by
  simp only [award_credits]
  split_ifs <;> simp

theorem process_skip_vote_error_snd (s : VoteState) (a : Nat) (c : Clock)
    (sh : Nat → Option Nat) (ge : Nat → Nat) (sv : SkipVoteInstructionData) :
    (process_skip_vote s a c sh ge sv).1.isSome → (process_skip_vote s a c sh ge sv).2 = s := by
  simp only [process_skip_vote]
  split_ifs <;> intro hs
  any_goals rfl
  revert hs
  split
  next e' vs heq =>
    exact fun _ => process_skip_credits_error heq
  next vs heq =>
    simp

theorem process_finalization_vote_error_snd (s : VoteState) (a : Nat) (c : Clock)
    (sh : Nat → Option Nat) (ge : Nat → Nat) (fv : FinalizationVoteInstructionData) :
    ∀ e, (process_finalization_vote s a c sh ge fv).1 = some e → e ≠ .unreachable →
      (process_finalization_vote s a c sh ge fv).2 = s := by
  intro e he hne
  simp only [process_finalization_vote] at he ⊢
  split_ifs at he ⊢
  any_goals rfl
  revert he
  split
  next e' heq => exact fun _ => rfl
  next heq =>
    intro he
    rcases award_credits_fst
        { s with latest_finalized_slot := fv.slot, latest_finalized_block_id := fv.block_id,
                 latest_finalized_bank_hash := fv.replayed_bank_hash }
        fv.slot (c.slot - fv.slot) ge with h1 | ⟨h1, _⟩
    · rw [h1] at he; cases he
    · rw [h1] at he
      cases he
      exact absurd rfl hne

theorem process_notarization_vote_error_snd (s : VoteState) (a : Nat) (c : Clock)
    (sh : Nat → Option Nat) (ge : Nat → Nat) (nv : NotarizationVoteInstructionData) :
    ∀ e, (process_notarization_vote s a c sh ge nv).1 = some e →
      e ≠ .timestampTooOld → e ≠ .unreachable →
      (process_notarization_vote s a c sh ge nv).2 = s := by
  intro e he hts hne
  simp only [process_notarization_vote] at he ⊢
  split_ifs at he ⊢
  any_goals rfl
  revert he
  split
  next e' heq => exact fun _ => rfl
  next heq =>
    split
    next ts hteq =>
      split_ifs with hcond
      · intro he
        rcases award_credits_fst
            { s with latest_notarized_slot := nv.slot, latest_notarized_block_id := nv.block_id,
                     latest_notarized_bank_hash := nv.replayed_bank_hash,
                     latest_timestamp := ⟨nv.slot, ts⟩ }
            nv.slot (c.slot - nv.slot) ge with h1 | ⟨h1, _⟩
        · rw [h1] at he; cases he
        · rw [h1] at he; cases he; exact absurd rfl hne
      · intro he
        cases he
        exact absurd rfl hts
    next hteq =>
      intro he
      rcases award_credits_fst
          { s with latest_notarized_slot := nv.slot, latest_notarized_block_id := nv.block_id,
                   latest_notarized_bank_hash := nv.replayed_bank_hash }
          nv.slot (c.slot - nv.slot) ge with h1 | ⟨h1, _⟩
      · rw [h1] at he; cases he
      · rw [h1] at he; cases he; exact absurd rfl hne

/-- C1 amended: a failing skip vote leaves the `VoteState` unchanged, and a
failing finalize or notarize vote leaves it unchanged when the error arises
in a validation check that precedes the field writes — every error except a
notarization `TimestampTooOld` (raised after the notarized fields were
overwritten) and the credit-accounting `Unreachable` error (raised after the
notarize/finalize fields were overwritten). -/
theorem failing_vote_leaves_state_unchanged (s : VoteState) (a : Nat) (c : Clock)
    (sh : Nat → Option Nat) (ge : Nat → Nat) (nv : NotarizationVoteInstructionData)
    (fv : FinalizationVoteInstructionData) (sv : SkipVoteInstructionData)
    (e : VoteError) (s' : VoteState) :
    (process_skip_vote s a c sh ge sv = (some e, s') → s' = s) ∧
    (process_finalization_vote s a c sh ge fv = (some e, s') → e ≠ .unreachable → s' = s) ∧
    (process_notarization_vote s a c sh ge nv = (some e, s') →
      e ≠ .timestampTooOld → e ≠ .unreachable → s' = s) := by
  refine ⟨fun h => ?_, fun h h1 => ?_, fun h h1 h2 => ?_⟩
  · have h2 := process_skip_vote_error_snd s a c sh ge sv
    rw [h] at h2
    simpa using h2
  · have h3 := process_finalization_vote_error_snd s a c sh ge fv e
    rw [h] at h3
    simpa using h3 rfl h1
  · have h3 := process_notarization_vote_error_snd s a c sh ge nv e
    rw [h] at h3
    simpa using h3 rfl h1 h2

/-- Witness for C1 (amended) at concrete failing calls: a skip vote with the
wrong signer, a finalization vote on a stale slot, and an unreplayed
notarization vote all return the starting state. -/
theorem failing_vote_leaves_state_unchanged_witness :
    (process_skip_vote (VoteState.new ⟨1, 2, 3, 0⟩ ⟨0, 1⟩) 9 ⟨100, 2⟩
        (fun _ => none) (fun t => t / 32) ⟨1, 4, 6⟩).2 = VoteState.new ⟨1, 2, 3, 0⟩ ⟨0, 1⟩ ∧
    (process_finalization_vote (VoteState.new ⟨1, 2, 3, 0⟩ ⟨0, 1⟩) 2 ⟨100, 2⟩
        (fun _ => none) (fun t => t / 32) ⟨1, 0, 0, 0, 0⟩).2 = VoteState.new ⟨1, 2, 3, 0⟩ ⟨0, 1⟩ ∧
    (process_notarization_vote (VoteState.new ⟨1, 2, 3, 0⟩ ⟨0, 1⟩) 2 ⟨100, 2⟩
        (fun _ => none) (fun t => t / 32) ⟨1, 5, 0, 0, 0, none⟩).2 =
      VoteState.new ⟨1, 2, 3, 0⟩ ⟨0, 1⟩ :=
  ⟨(failing_vote_leaves_state_unchanged (VoteState.new ⟨1, 2, 3, 0⟩ ⟨0, 1⟩) 9 ⟨100, 2⟩
      (fun _ => none) (fun t => t / 32) ⟨1, 5, 0, 0, 0, none⟩ ⟨1, 0, 0, 0, 0⟩ ⟨1, 4, 6⟩
      .missingRequiredSignature
      (process_skip_vote (VoteState.new ⟨1, 2, 3, 0⟩ ⟨0, 1⟩) 9 ⟨100, 2⟩
        (fun _ => none) (fun t => t / 32) ⟨1, 4, 6⟩).2).1 (by decide),
   (failing_vote_leaves_state_unchanged (VoteState.new ⟨1, 2, 3, 0⟩ ⟨0, 1⟩) 2 ⟨100, 2⟩
      (fun _ => none) (fun t => t / 32) ⟨1, 5, 0, 0, 0, none⟩ ⟨1, 0, 0, 0, 0⟩ ⟨1, 4, 6⟩
      .voteTooOld
      (process_finalization_vote (VoteState.new ⟨1, 2, 3, 0⟩ ⟨0, 1⟩) 2 ⟨100, 2⟩
        (fun _ => none) (fun t => t / 32) ⟨1, 0, 0, 0, 0⟩).2).2.1 (by decide) (by decide),
   (failing_vote_leaves_state_unchanged (VoteState.new ⟨1, 2, 3, 0⟩ ⟨0, 1⟩) 2 ⟨100, 2⟩
      (fun _ => none) (fun t => t / 32) ⟨1, 5, 0, 0, 0, none⟩ ⟨1, 0, 0, 0, 0⟩ ⟨1, 4, 6⟩
      .slotHashesMissingKey
      (process_notarization_vote (VoteState.new ⟨1, 2, 3, 0⟩ ⟨0, 1⟩) 2 ⟨100, 2⟩
        (fun _ => none) (fun t => t / 32) ⟨1, 5, 0, 0, 0, none⟩).2).2.2
      (by decide) (by decide) (by decide)⟩

theorem notarize_ok_shape {s s' : VoteState} {a : Nat} {c : Clock} {sh : Nat → Option Nat}
    {ge : Nat → Nat} {v : NotarizationVoteInstructionData}
    (h : process_notarization_vote s a c sh ge v = (none, s')) :
    s'.latest_notarized_slot = v.slot ∧ s.latest_notarized_slot < v.slot ∧
    s'.latest_finalized_slot = s.latest_finalized_slot ∧
    s'.latest_skip_start_slot = s.latest_skip_start_slot ∧
    s'.latest_skip_end_slot = s.latest_skip_end_slot := by
  simp only [process_notarization_vote] at h
  split_ifs at h with h1 h2 h3
  · exact absurd (congrArg Prod.fst h) (by simp)
  · exact absurd (congrArg Prod.fst h) (by simp)
  · exact absurd (congrArg Prod.fst h) (by simp)
  rcases hre : replay_bank_hash_checks v.slot v.replayed_bank_hash sh with _ | e'
  on_goal 2 => rw [hre] at h; exact absurd (congrArg Prod.fst h) (by simp)
  rw [hre] at h
  rcases hts : v.timestamp with _ | ts
  all_goals rw [hts] at h
  · have hs' := congrArg Prod.snd h
    dsimp only at hs'
    rw [← hs']
    exact ⟨(award_credits_preserves _ _ _ _).1, by omega, (award_credits_preserves _ _ _ _).2.1,
      (award_credits_preserves _ _ _ _).2.2.1, (award_credits_preserves _ _ _ _).2.2.2.1⟩
  · dsimp only at h
    split_ifs at h with hcond
    · have hs' := congrArg Prod.snd h
      dsimp only at hs'
      rw [← hs']
      exact ⟨(award_credits_preserves _ _ _ _).1, by omega, (award_credits_preserves _ _ _ _).2.1,
        (award_credits_preserves _ _ _ _).2.2.1, (award_credits_preserves _ _ _ _).2.2.2.1⟩
    · exact absurd (congrArg Prod.fst h) (by simp)

theorem finalize_ok_shape {s s' : VoteState} {a : Nat} {c : Clock} {sh : Nat → Option Nat}
    {ge : Nat → Nat} {v : FinalizationVoteInstructionData}
    (h : process_finalization_vote s a c sh ge v = (none, s')) :
    s'.latest_finalized_slot = v.slot ∧ s.latest_finalized_slot < v.slot ∧
    ¬ (s.latest_skip_start_slot ≤ v.slot ∧ v.slot ≤ s.latest_skip_end_slot) ∧
    s'.latest_skip_start_slot = s.latest_skip_start_slot ∧
    s'.latest_skip_end_slot = s.latest_skip_end_slot ∧
    s'.latest_notarized_slot = s.latest_notarized_slot := by
  simp only [process_finalization_vote] at h
  split_ifs at h with h1 h2 h3 h4
  · exact absurd (congrArg Prod.fst h) (by simp)
  · exact absurd (congrArg Prod.fst h) (by simp)
  · exact absurd (congrArg Prod.fst h) (by simp)
  · exact absurd (congrArg Prod.fst h) (by simp)
  rcases hre : replay_bank_hash_checks v.slot v.replayed_bank_hash sh with _ | e'
  on_goal 2 => rw [hre] at h; exact absurd (congrArg Prod.fst h) (by simp)
  rw [hre] at h
  have hs' := congrArg Prod.snd h
  dsimp only at hs'
  rw [← hs']
  exact ⟨(award_credits_preserves _ _ _ _).2.1, by omega, h4,
    (award_credits_preserves _ _ _ _).2.2.1, (award_credits_preserves _ _ _ _).2.2.2.1,
    (award_credits_preserves _ _ _ _).1⟩

theorem process_skip_credits_preserves (s : VoteState) (va vb : Nat) (c : Clock)
    (sh : Nat → Option Nat) (g : Nat → Nat) :
    (process_skip_credits s va vb c sh g).2.latest_notarized_slot = s.latest_notarized_slot ∧
    (process_skip_credits s va vb c sh g).2.latest_finalized_slot = s.latest_finalized_slot ∧
    (process_skip_credits s va vb c sh g).2.latest_skip_start_slot = s.latest_skip_start_slot ∧
    (process_skip_credits s va vb c sh g).2.latest_skip_end_slot = s.latest_skip_end_slot ∧
    (process_skip_credits s va vb c sh g).2.latest_timestamp = s.latest_timestamp ∧
    (process_skip_credits s va vb c sh g).2.authorized_voter = s.authorized_voter := by
  simp only [process_skip_credits]
  split_ifs
  · exact ⟨rfl, rfl, rfl, rfl, rfl, rfl⟩
  · exact ⟨(award_credits_preserves _ _ _ _).1, (award_credits_preserves _ _ _ _).2.1,
      (award_credits_preserves _ _ _ _).2.2.1, (award_credits_preserves _ _ _ _).2.2.2.1,
      (award_credits_preserves _ _ _ _).2.2.2.2.1, (award_credits_preserves _ _ _ _).2.2.2.2.2.1⟩

theorem skip_ok_shape {s s' : VoteState} {a : Nat} {c : Clock} {sh : Nat → Option Nat}
    {ge : Nat → Nat} {v : SkipVoteInstructionData}
    (h : process_skip_vote s a c sh ge v = (none, s')) :
    s'.latest_skip_start_slot = v.start_slot ∧ s'.latest_skip_end_slot = v.end_slot ∧
    s'.latest_finalized_slot = s.latest_finalized_slot ∧
    s'.latest_notarized_slot = s.latest_notarized_slot ∧
    ¬ (v.start_slot ≤ s.latest_finalized_slot ∧ s.latest_finalized_slot ≤ v.end_slot) := by
  simp only [process_skip_vote] at h
  split_ifs at h with h1 h2 h3 h4
  · exact absurd (congrArg Prod.fst h) (by simp)
  · exact absurd (congrArg Prod.fst h) (by simp)
  · exact absurd (congrArg Prod.fst h) (by simp)
  · exact absurd (congrArg Prod.fst h) (by simp)
  rcases hpsc : process_skip_credits s v.start_slot v.end_slot c sh ge with ⟨r, vs⟩
  rw [hpsc] at h
  rcases r with _ | e'
  on_goal 2 => exact absurd (congrArg Prod.fst h) (by simp)
  have hs' := congrArg Prod.snd h
  dsimp only at hs'
  rw [← hs']
  have hp := process_skip_credits_preserves s v.start_slot v.end_slot c sh ge
  rw [hpsc] at hp
  exact ⟨rfl, rfl, hp.2.1, hp.1, h4⟩

/-- C2 amended: `latest_notarized_slot` strictly increases across every
successful notarize application and `latest_finalized_slot` strictly
increases across every successful finalize application; the skip clause of
the original claim is dropped, because a successful skip vote rewrites
`latest_skip_range` to the new range even when its end is lower than the
recorded one (see the counterexample). -/
theorem notarize_finalize_slots_strictly_increase (s : VoteState) (a : Nat) (c : Clock)
    (sh : Nat → Option Nat) (ge : Nat → Nat) (nv : NotarizationVoteInstructionData)
    (fv : FinalizationVoteInstructionData) (s₁ s₂ : VoteState) :
    (process_notarization_vote s a c sh ge nv = (none, s₁) →
      s.latest_notarized_slot < s₁.latest_notarized_slot) ∧
    (process_finalization_vote s a c sh ge fv = (none, s₂) →
      s.latest_finalized_slot < s₂.latest_finalized_slot) := by
  constructor
  · intro h
    obtain ⟨e1, e2, -⟩ := notarize_ok_shape h
    omega
  · intro h
    obtain ⟨e1, e2, -⟩ := finalize_ok_shape h
    omega

/-- Witness for C2 (amended): a successful notarization of slot 5 and a
successful finalization of slot 4 from a fresh state strictly raise the
respective marks. -/
theorem notarize_finalize_slots_strictly_increase_witness :
    (VoteState.new ⟨1, 2, 3, 0⟩ ⟨0, 1⟩).latest_notarized_slot <
      (process_notarization_vote (VoteState.new ⟨1, 2, 3, 0⟩ ⟨0, 1⟩) 2 ⟨10, 1⟩
        (fun t => if t ≤ 6 then some 7 else none) (fun t => t / 32)
        ⟨1, 5, 77, 0, 7, none⟩).2.latest_notarized_slot ∧
    (VoteState.new ⟨1, 2, 3, 0⟩ ⟨0, 1⟩).latest_finalized_slot <
      (process_finalization_vote (VoteState.new ⟨1, 2, 3, 0⟩ ⟨0, 1⟩) 2 ⟨10, 1⟩
        (fun t => if t ≤ 6 then some 7 else none) (fun t => t / 32)
        ⟨1, 4, 77, 0, 7⟩).2.latest_finalized_slot :=
  ⟨(notarize_finalize_slots_strictly_increase (VoteState.new ⟨1, 2, 3, 0⟩ ⟨0, 1⟩) 2 ⟨10, 1⟩
      (fun t => if t ≤ 6 then some 7 else none) (fun t => t / 32)
      ⟨1, 5, 77, 0, 7, none⟩ ⟨1, 4, 77, 0, 7⟩
      (process_notarization_vote (VoteState.new ⟨1, 2, 3, 0⟩ ⟨0, 1⟩) 2 ⟨10, 1⟩
        (fun t => if t ≤ 6 then some 7 else none) (fun t => t / 32)
        ⟨1, 5, 77, 0, 7, none⟩).2
      (process_finalization_vote (VoteState.new ⟨1, 2, 3, 0⟩ ⟨0, 1⟩) 2 ⟨10, 1⟩
        (fun t => if t ≤ 6 then some 7 else none) (fun t => t / 32)
        ⟨1, 4, 77, 0, 7⟩).2).1 (by decide),
   (notarize_finalize_slots_strictly_increase (VoteState.new ⟨1, 2, 3, 0⟩ ⟨0, 1⟩) 2 ⟨10, 1⟩
      (fun t => if t ≤ 6 then some 7 else none) (fun t => t / 32)
      ⟨1, 5, 77, 0, 7, none⟩ ⟨1, 4, 77, 0, 7⟩
      (process_notarization_vote (VoteState.new ⟨1, 2, 3, 0⟩ ⟨0, 1⟩) 2 ⟨10, 1⟩
        (fun t => if t ≤ 6 then some 7 else none) (fun t => t / 32)
        ⟨1, 5, 77, 0, 7, none⟩).2
      (process_finalization_vote (VoteState.new ⟨1, 2, 3, 0⟩ ⟨0, 1⟩) 2 ⟨10, 1⟩
        (fun t => if t ≤ 6 then some 7 else none) (fun t => t / 32)
        ⟨1, 4, 77, 0, 7⟩).2).2 (by decide)⟩

/-- C3: in every state reachable by successful vote applications from an
initialized `VoteState`, the recorded finalized slot (read through the
`latest_finalized_slot()` accessor, `none` while unset) never lies inside the
recorded skip range; moreover a finalization vote for a slot inside the
recorded skip range (that passed version, signer and monotonicity checks)
fails with `SkipSlotRangeContainsFinalizationVote`, and a skip vote whose
well-ordered range contains the recorded finalized slot fails with the same
error. -/
theorem finalized_never_in_skip_range (s : VoteState) (hr : Reachable s) :
    (∀ f, s.latestFinalizedSlotOpt = some f →
      ¬ (s.latest_skip_start_slot ≤ f ∧ f ≤ s.latest_skip_end_slot)) ∧
    (∀ (a : Nat) (c : Clock) (sh : Nat → Option Nat) (ge : Nat → Nat)
        (fv : FinalizationVoteInstructionData),
      fv.version = 1 → s.authorized_voter.voter = a → s.latest_finalized_slot < fv.slot →
      s.latest_skip_start_slot ≤ fv.slot → fv.slot ≤ s.latest_skip_end_slot →
      process_finalization_vote s a c sh ge fv =
        (some .skipSlotRangeContainsFinalizationVote, s)) ∧
    (∀ (a : Nat) (c : Clock) (sh : Nat → Option Nat) (ge : Nat → Nat)
        (sv : SkipVoteInstructionData),
      sv.version = 1 → s.authorized_voter.voter = a → sv.start_slot ≤ sv.end_slot →
      sv.start_slot ≤ s.latest_finalized_slot → s.latest_finalized_slot ≤ sv.end_slot →
      process_skip_vote s a c sh ge sv =
        (some .skipSlotRangeContainsFinalizationVote, s)) := by
  refine ⟨?_, ?_, ?_⟩
  · have inv : ∀ t, Reachable t → 0 < t.latest_finalized_slot →
        ¬ (t.latest_skip_start_slot ≤ t.latest_finalized_slot ∧
           t.latest_finalized_slot ≤ t.latest_skip_end_slot) := by
      intro t ht
      induction ht with
      | init d c =>
        intro hpos
        simp [VoteState.new, VoteState.zeroed] at hpos
      | notarize a c sh ge v hprev heq ih =>
        obtain ⟨-, -, e1, e2, e3⟩ := notarize_ok_shape heq
        rw [e1, e2, e3]
        exact ih
      | finalize a c sh ge v hprev heq ih =>
        obtain ⟨e1, -, hno, e2, e3, -⟩ := finalize_ok_shape heq
        rw [e1, e2, e3]
        exact fun _ => hno
      | skip a c sh ge v hprev heq ih =>
        obtain ⟨e1, e2, e3, -, hno⟩ := skip_ok_shape heq
        rw [e1, e2, e3]
        exact fun _ => hno
    intro f hf
    simp only [VoteState.latestFinalizedSlotOpt] at hf
    split_ifs at hf with h0
    cases hf
    exact inv s hr h0
  · intro a c sh ge fv hv hs h3 h4 h5
    simp only [process_finalization_vote]
    rw [if_neg (by simp [hv]), if_neg (by simp [hs]), if_neg (by omega), if_pos ⟨h4, h5⟩]
  · intro a c sh ge sv hv hs h3 h4 h5
    simp only [process_skip_vote]
    rw [if_neg (by simp [hv]), if_neg (by simp [hs]), if_neg (by omega), if_pos ⟨h4, h5⟩]

/-- Witness for C3 at the freshly initialized (reachable) state: a skip vote
on the range `(0, 5)`, which contains the recorded (unset, slot 0) finalized
mark, is rejected with `SkipSlotRangeContainsFinalizationVote`. -/
theorem finalized_never_in_skip_range_witness :
    process_skip_vote (VoteState.new ⟨1, 2, 3, 0⟩ ⟨0, 1⟩) 2 ⟨50, 1⟩ (fun _ => none)
        (fun t => t / 32) ⟨1, 0, 5⟩ =
      (some .skipSlotRangeContainsFinalizationVote, VoteState.new ⟨1, 2, 3, 0⟩ ⟨0, 1⟩) :=
  (finalized_never_in_skip_range _ (Reachable.init ⟨1, 2, 3, 0⟩ ⟨0, 1⟩)).2.2 2 ⟨50, 1⟩
    (fun _ => none) (fun t => t / 32) ⟨1, 0, 5⟩ rfl rfl (by decide) (by decide) (by decide)

theorem process_skip_credits_fst (s : VoteState) (va vb : Nat) (c : Clock)
    (sh : Nat → Option Nat) (g : Nat → Nat) (h : vb ≤ c.slot) :
    (process_skip_credits s va vb c sh g).1 = none ∨
    (process_skip_credits s va vb c sh g).1 = some .unreachable := by
  simp only [process_skip_credits]
  rw [if_neg (by omega)]
  rcases award_credits_fst s _ _ g with h1 | ⟨h1, -⟩
  · exact Or.inl h1
  · exact Or.inr h1

/-- C5 amended: given a skip vote that passes the version, signer,
range-order and finalized-overlap checks, the call fails with
`SkipEndSlotExceedsCurrentSlot` exactly when `end_slot > current_slot`; a
skip vote whose range ends at the current slot is not rejected by this
check (it merely earns no credit for that slot). -/
theorem skip_end_exceeds_clock_iff (s : VoteState) (a : Nat) (c : Clock)
    (sh : Nat → Option Nat) (ge : Nat → Nat) (sv : SkipVoteInstructionData)
    (hv : sv.version = 1) (hs : s.authorized_voter.voter = a)
    (ho : sv.start_slot ≤ sv.end_slot)
    (hf : ¬ (sv.start_slot ≤ s.latest_finalized_slot ∧
        s.latest_finalized_slot ≤ sv.end_slot)) :
    (c.slot < sv.end_slot →
      process_skip_vote s a c sh ge sv = (some .skipEndSlotExceedsCurrentSlot, s)) ∧
    (sv.end_slot ≤ c.slot →
      (process_skip_vote s a c sh ge sv).1 ≠ some .skipEndSlotExceedsCurrentSlot) := by
  constructor
  · intro hgt
    simp only [process_skip_vote]
    rw [if_neg (by simp [hv]), if_neg (by simp [hs]), if_neg (by omega), if_neg hf]
    have hpsc : process_skip_credits s sv.start_slot sv.end_slot c sh ge =
        (some .skipEndSlotExceedsCurrentSlot, s) := by
      simp only [process_skip_credits]
      rw [if_pos (by omega)]
    rw [hpsc]
  · intro hle
    simp only [process_skip_vote]
    rw [if_neg (by simp [hv]), if_neg (by simp [hs]), if_neg (by omega), if_neg hf]
    rcases hpsc : process_skip_credits s sv.start_slot sv.end_slot c sh ge with ⟨r, vs⟩
    rcases process_skip_credits_fst s sv.start_slot sv.end_slot c sh ge hle with h1 | h1 <;>
      rw [hpsc] at h1 <;> dsimp only at h1 <;> subst h1 <;> simp

/-- Witness for C5 (amended): skipping up to slot 200 at clock slot 100 is
rejected with `SkipEndSlotExceedsCurrentSlot`, while skipping up to slot 90
at clock slot 100 is not rejected with that error. -/
theorem skip_end_exceeds_clock_iff_witness :
    process_skip_vote (VoteState.new ⟨1, 2, 3, 0⟩ ⟨0, 1⟩) 2 ⟨100, 2⟩ (fun _ => some 7)
        (fun t => t / 32) ⟨1, 5, 200⟩ =
      (some .skipEndSlotExceedsCurrentSlot, VoteState.new ⟨1, 2, 3, 0⟩ ⟨0, 1⟩) ∧
    (process_skip_vote (VoteState.new ⟨1, 2, 3, 0⟩ ⟨0, 1⟩) 2 ⟨100, 2⟩ (fun _ => some 7)
        (fun t => t / 32) ⟨1, 5, 90⟩).1 ≠ some .skipEndSlotExceedsCurrentSlot :=
  ⟨(skip_end_exceeds_clock_iff (VoteState.new ⟨1, 2, 3, 0⟩ ⟨0, 1⟩) 2 ⟨100, 2⟩
      (fun _ => some 7) (fun t => t / 32) ⟨1, 5, 200⟩ rfl rfl (by decide) (by decide)).1
      (by decide),
   (skip_end_exceeds_clock_iff (VoteState.new ⟨1, 2, 3, 0⟩ ⟨0, 1⟩) 2 ⟨100, 2⟩
      (fun _ => some 7) (fun t => t / 32) ⟨1, 5, 90⟩ rfl rfl (by decide) (by decide)).2
      (by decide)⟩

/-- C6 amended: a timestamped notarization vote that passed the signer,
monotonicity and replay checks is accepted exactly when the supplied
timestamp is nonzero and strictly greater than the last recorded timestamp
(there is no equal-timestamp exception for an unset slot); on rejection the
call fails with `TimestampTooOld` — the notarized fields having already been
overwritten — and on acceptance `latest_timestamp` becomes the vote's slot
paired with the supplied timestamp. -/
theorem notarize_timestamp_rule (s : VoteState) (a : Nat) (c : Clock)
    (sh : Nat → Option Nat) (ge : Nat → Nat) (v : NotarizationVoteInstructionData)
    (ts : Int) (h0 : v.timestamp = some ts) (hv : v.version = 1)
    (hs : s.authorized_voter.voter = a) (hm : s.latest_notarized_slot < v.slot)
    (hre : sh v.slot = some v.replayed_bank_hash) :
    (¬ (ts ≠ 0 ∧ s.latest_timestamp.timestamp < ts) →
      process_notarization_vote s a c sh ge v =
        (some .timestampTooOld,
          { s with latest_notarized_slot := v.slot
                   latest_notarized_block_id := v.block_id
                   latest_notarized_bank_hash := v.replayed_bank_hash })) ∧
    ((ts ≠ 0 ∧ s.latest_timestamp.timestamp < ts) →
      (process_notarization_vote s a c sh ge v).2.latest_timestamp = ⟨v.slot, ts⟩) := by
  have hrepl : replay_bank_hash_checks v.slot v.replayed_bank_hash sh = none := by
    simp [replay_bank_hash_checks, hre]
  constructor
  · intro hcond
    simp only [process_notarization_vote]
    rw [if_neg (by simp [hv]), if_neg (by simp [hs]), if_neg (by omega), hrepl, h0]
    dsimp only
    rw [if_neg hcond]
  · intro hcond
    simp only [process_notarization_vote]
    rw [if_neg (by simp [hv]), if_neg (by simp [hs]), if_neg (by omega), hrepl, h0]
    dsimp only
    rw [if_pos hcond]
    exact (award_credits_preserves _ _ _ _).2.2.2.2.1

/-- Witness for C6 (amended): on a fresh state, a notarization of slot 5
carrying timestamp −1 is rejected with `TimestampTooOld` (with the notarized
fields already updated), while one carrying timestamp 4 records
`latest_timestamp = (5, 4)`. -/
theorem notarize_timestamp_rule_witness :
    process_notarization_vote (VoteState.new ⟨1, 2, 3, 0⟩ ⟨0, 1⟩) 2 ⟨10, 1⟩
        (fun t => if t = 5 then some 7 else none) (fun t => t / 32)
        ⟨1, 5, 77, 0, 7, some (-1)⟩ =
      (some .timestampTooOld,
        { VoteState.new ⟨1, 2, 3, 0⟩ ⟨0, 1⟩ with
            latest_notarized_slot := 5
            latest_notarized_block_id := 77
            latest_notarized_bank_hash := 7 }) ∧
    (process_notarization_vote (VoteState.new ⟨1, 2, 3, 0⟩ ⟨0, 1⟩) 2 ⟨10, 1⟩
        (fun t => if t = 5 then some 7 else none) (fun t => t / 32)
        ⟨1, 5, 77, 0, 7, some 4⟩).2.latest_timestamp = ⟨5, 4⟩ :=
  ⟨(notarize_timestamp_rule (VoteState.new ⟨1, 2, 3, 0⟩ ⟨0, 1⟩) 2 ⟨10, 1⟩
      (fun t => if t = 5 then some 7 else none) (fun t => t / 32)
      ⟨1, 5, 77, 0, 7, some (-1)⟩ (-1) rfl rfl rfl (by decide) (by decide)).1 (by decide),
   (notarize_timestamp_rule (VoteState.new ⟨1, 2, 3, 0⟩ ⟨0, 1⟩) 2 ⟨10, 1⟩
      (fun t => if t = 5 then some 7 else none) (fun t => t / 32)
      ⟨1, 5, 77, 0, 7, some 4⟩ 4 rfl rfl rfl (by decide) (by decide)).2 (by decide)⟩

/-- C8 amended: when resolving (and caching) the current epoch's voter
succeeds and the verification callback passes, `set_new_authorized_voter`
fails with `TooSoonToReauthorize` exactly when, after the cache-and-purge
step, an authorized-voter entry is scheduled at exactly `target_epoch`
(which includes `target_epoch = current_epoch`, since resolving caches an
entry at the current epoch) — a pending voter scheduled at an earlier but
still future epoch does not trigger the error, whether or not it equals the
new voter. -/
theorem too_soon_to_reauthorize_iff (s : IVoteState) (pk cur tgt v : Nat)
    (m : List (Nat × Nat)) (verify : Nat → Option VoteError)
    (hres : avGetAndCache s.authorized_voters cur = (some v, m))
    (hver : verify v = none) :
    (set_new_authorized_voter s pk cur tgt verify).1 = some .tooSoonToReauthorize ↔
      avContains (avPurge m cur) tgt = true := by
  simp only [set_new_authorized_voter]
  rw [hres]
  dsimp only
  rw [hver]
  dsimp only
  by_cases hc : avContains (avPurge m cur) tgt = true
  · rw [if_pos hc]
    simp [hc]
  · rw [if_neg hc]
    simp only [hc, iff_false]
    rcases avLast (avPurge m cur) with _ | ⟨le, lp⟩
    · simp
    · dsimp only
      split_ifs <;> simp

/-- Witness for C8 (amended): with a single current voter cached from epoch
0, requesting a rotation whose target equals the current epoch (1) fails
with `TooSoonToReauthorize`, because resolving caches an entry exactly at
epoch 1. -/
theorem too_soon_to_reauthorize_iff_witness :
    (set_new_authorized_voter ⟨[(0, 10)], CircBuf.empty⟩ 25 1 1 (fun _ => none)).1 =
      some .tooSoonToReauthorize :=
  (too_soon_to_reauthorize_iff ⟨[(0, 10)], CircBuf.empty⟩ 25 1 1 10 [(0, 10), (1, 10)]
      (fun _ => none) (by decide) rfl).mpr (by decide)

/-- C10: `set_vote_account_state` rejects any `VoteState` whose
authorized-voter epoch is 0 with `InvalidArgument`, leaving the account
untouched; consequently `initialize_account` fails whenever the clock epoch
is 0 (the fresh state's authorized-voter epoch is the clock epoch), and the
full-withdrawal deinitialization path of `withdraw` — which writes the zeroed
default state, whose authorized-voter epoch is 0 — always fails with
`InvalidArgument`. -/
theorem vote_account_state_epoch_zero_rejected
    (acct : AccountState) (vs : VoteState) (init_data : InitializeAccountInstructionData)
    (clock : Clock) (recipient lamports wpk rent : Nat) :
    (vs.authorized_voter.epoch = 0 →
      set_vote_account_state acct vs = (some .invalidArgument, acct)) ∧
    (clock.epoch = 0 →
      (initialize_account acct init_data clock).1.isSome ∧
      (initialize_account acct init_data clock).2 = acct) ∧
    (acct.data.authorized_withdrawer = wpk → lamports = acct.lamports →
      2 ≤ clock.epoch - acct.data.epoch_credits.epoch →
      withdraw acct recipient lamports wpk rent clock =
        (some .invalidArgument, acct, recipient)) := by
  refine ⟨?_, ?_, ?_⟩
  · intro h
    simp [set_vote_account_state, h]
  · intro h
    unfold initialize_account
    split_ifs with h1
    · exact ⟨rfl, rfl⟩
    · simp [set_vote_account_state, VoteState.new, h]
  · intro h1 h2 h3
    subst h2
    unfold withdraw
    rw [if_neg (by simp [h1]), if_neg (by omega)]
    simp only [Nat.sub_self, if_pos rfl, if_neg (by omega : ¬ clock.epoch -
      acct.data.epoch_credits.epoch < 2)]
    rfl

/-- Witness for C10 at a concrete account with 5 lamports, a zeroed state and
clock epochs 0 (for initialization) and 2 (for full withdrawal). -/
theorem vote_account_state_epoch_zero_rejected_witness :
    set_vote_account_state ⟨5, VoteState.zeroed⟩ VoteState.zeroed =
      (some .invalidArgument, ⟨5, VoteState.zeroed⟩) ∧
    (initialize_account ⟨5, VoteState.zeroed⟩ ⟨1, 2, 3, 0⟩ ⟨0, 0⟩).1.isSome ∧
    withdraw ⟨5, VoteState.zeroed⟩ 7 5 0 1 ⟨0, 2⟩ =
      (some .invalidArgument, ⟨5, VoteState.zeroed⟩, 7) :=
  ⟨(vote_account_state_epoch_zero_rejected ⟨5, VoteState.zeroed⟩ VoteState.zeroed
      ⟨1, 2, 3, 0⟩ ⟨0, 0⟩ 7 5 0 1).1 rfl,
   ((vote_account_state_epoch_zero_rejected ⟨5, VoteState.zeroed⟩ VoteState.zeroed
      ⟨1, 2, 3, 0⟩ ⟨0, 0⟩ 7 5 0 1).2.1 rfl).1,
   (vote_account_state_epoch_zero_rejected ⟨5, VoteState.zeroed⟩ VoteState.zeroed
      ⟨1, 2, 3, 0⟩ ⟨0, 2⟩ 7 5 0 1).2.2 rfl rfl (by decide)⟩

/-- Witness for C9 at the spec's own example: splitting 10 units at 50%
commission yields `(5, 5, true)` and conserves the total. -/
theorem commission_split_spec_witness :
    commission_split 50 10 = (5, 5, true) ∧
    (commission_split 50 10).1 + (commission_split 50 10).2.1 ≤ 10 :=
  ⟨(commission_split_spec 50 10 (by decide)).2.2.1 (by decide) (by decide),
   (commission_split_spec 50 10 (by decide)).2.2.2.1⟩

/-- C1 counterexample: a notarization vote on slot 5 (replay hash present,
version and signer fine) carrying timestamp 0 against a freshly initialized
state fails with `TimestampTooOld`, yet `latest_notarized_slot` has already
been overwritten from 0 to 5 — the failing call does not leave every field
unchanged. -/
theorem notarize_fail_mutates_counterexample :
    (process_notarization_vote (VoteState.new ⟨1, 2, 3, 0⟩ ⟨0, 1⟩) 2 ⟨10, 1⟩
        (fun t => if t = 5 then some 7 else none) (fun t => t / 32)
        ⟨1, 5, 77, 0, 7, some 0⟩).1 = some .timestampTooOld ∧
    (process_notarization_vote (VoteState.new ⟨1, 2, 3, 0⟩ ⟨0, 1⟩) 2 ⟨10, 1⟩
        (fun t => if t = 5 then some 7 else none) (fun t => t / 32)
        ⟨1, 5, 77, 0, 7, some 0⟩).2.latest_notarized_slot = 5 ∧
    (VoteState.new ⟨1, 2, 3, 0⟩ ⟨0, 1⟩).latest_notarized_slot = 0 := by decide

/-- C2 counterexample: from a freshly initialized state, a skip vote on
`(90, 100)` at clock slot 100 succeeds (every covered slot has an observed
hash, so no credits are at stake), and a second skip vote on `(50, 60)` also
succeeds and rewrites the recorded skip range — `latest_skip_end_slot`
decreases from 100 to 60 across successful applications. -/
theorem skip_end_regress_counterexample :
    (process_skip_vote (VoteState.new ⟨1, 2, 3, 0⟩ ⟨0, 1⟩) 2 ⟨100, 2⟩
        (fun t => if 90 ≤ t ∧ t ≤ 99 then some 7 else none) (fun t => t / 32)
        ⟨1, 90, 100⟩).1 = none ∧
    (process_skip_vote (VoteState.new ⟨1, 2, 3, 0⟩ ⟨0, 1⟩) 2 ⟨100, 2⟩
        (fun t => if 90 ≤ t ∧ t ≤ 99 then some 7 else none) (fun t => t / 32)
        ⟨1, 90, 100⟩).2.latest_skip_end_slot = 100 ∧
    (process_skip_vote
        (process_skip_vote (VoteState.new ⟨1, 2, 3, 0⟩ ⟨0, 1⟩) 2 ⟨100, 2⟩
          (fun t => if 90 ≤ t ∧ t ≤ 99 then some 7 else none) (fun t => t / 32)
          ⟨1, 90, 100⟩).2 2 ⟨100, 2⟩
        (fun t => if 90 ≤ t ∧ t ≤ 99 then some 7 else none) (fun t => t / 32)
        ⟨1, 50, 60⟩).1 = none ∧
    (process_skip_vote
        (process_skip_vote (VoteState.new ⟨1, 2, 3, 0⟩ ⟨0, 1⟩) 2 ⟨100, 2⟩
          (fun t => if 90 ≤ t ∧ t ≤ 99 then some 7 else none) (fun t => t / 32)
          ⟨1, 90, 100⟩).2 2 ⟨100, 2⟩
        (fun t => if 90 ≤ t ∧ t ≤ 99 then some 7 else none) (fun t => t / 32)
        ⟨1, 50, 60⟩).2.latest_skip_end_slot = 60 := by decide

/-- C4 counterexample: a skip vote `(5, 6)` at clock slot 10 passes the
version, signer, range-order, finalized-overlap and current-slot checks
(5 ≤ 6 < 10), but the state has recorded credits for epoch 1 and every
covered slot carries an observed hash, so the credit pass awards for slot 0
of epoch 0 and `award_credits` fails with the `Unreachable` error instead of
returning success. -/
theorem skip_checks_pass_but_fail_counterexample :
    process_skip_vote
        { VoteState.new ⟨1, 2, 3, 0⟩ ⟨0, 1⟩ with epoch_credits := ⟨1, 0, 0⟩ } 2 ⟨10, 1⟩
        (fun _ => some 3) (fun t => t / 32) ⟨1, 5, 6⟩ =
      (some .unreachable,
        { VoteState.new ⟨1, 2, 3, 0⟩ ⟨0, 1⟩ with epoch_credits := ⟨1, 0, 0⟩ }) := by decide

/-- C5 counterexample: a skip vote whose `end_slot` equals the clock slot
(100) is not rejected — the call succeeds, so the failure condition is
`end_slot > current_slot`, not `end_slot ≥ current_slot`. -/
theorem skip_end_eq_clock_ok_counterexample :
    (process_skip_vote (VoteState.new ⟨1, 2, 3, 0⟩ ⟨0, 1⟩) 2 ⟨100, 2⟩
        (fun t => if 88 ≤ t ∧ t ≤ 99 then some 9 else none) (fun t => t / 32)
        ⟨1, 95, 100⟩).1 = none := by decide

/-- C6 counterexample: a timestamped notarization vote whose timestamp (0)
equals the last recorded timestamp (0) while the last recorded slot is unset
(0) is rejected with `TimestampTooOld`, although the claim's condition says
that exact case should be accepted. -/
theorem timestamp_zero_rejected_counterexample :
    (VoteState.new ⟨4, 6, 8, 0⟩ ⟨0, 1⟩).latest_timestamp = ⟨0, 0⟩ ∧
    (process_notarization_vote (VoteState.new ⟨4, 6, 8, 0⟩ ⟨0, 1⟩) 6 ⟨12, 1⟩
        (fun t => if t = 9 then some 11 else none) (fun t => t / 32)
        ⟨1, 9, 13, 0, 11, some 0⟩).1 = some .timestampTooOld := by decide

/-- C8 counterexample: a registry holding the current voter from epoch 0 and
a pending voter scheduled for epoch 15 accepts a rotation call with
`current_epoch = 2` and `target_epoch = 17` — both when the new voter equals
the pending voter (key 20) and when it differs (key 30) — even though a
pending activation epoch (15) at-or-before the target (17) exists, so the
call does not fail with `TooSoonToReauthorize` in that situation; it fails
only when an entry sits exactly at the target epoch. -/
theorem reauthorize_earlier_pending_ok_counterexample :
    (2 : Nat) < 15 ∧ (15 : Nat) ≤ 17 ∧
    (set_new_authorized_voter ⟨[(0, 10), (15, 20)], CircBuf.empty⟩ 20 2 17
        (fun _ => none)).1 = none ∧
    (set_new_authorized_voter ⟨[(0, 10), (15, 20)], CircBuf.empty⟩ 30 2 17
        (fun _ => none)).1 = none ∧
    (set_new_authorized_voter ⟨[(0, 10), (15, 20)], CircBuf.empty⟩ 30 2 15
        (fun _ => none)).1 = some .tooSoonToReauthorize := by decide

theorem skip_fold_eq (c : Clock) (sh : Nat → Option Nat) :
    ∀ (xs : List Nat) (a l : Nat),
      xs.foldl (fun (q : Nat × Nat) t =>
          if (sh t).isNone ∧ t ≠ c.slot then (satAdd q.1 (latency_to_credits (c.slot - t)), t)
          else q) (a, l) =
        ((xs.filter fun t => (sh t).isNone ∧ t ≠ c.slot).foldl
            (fun acc t => satAdd acc (latency_to_credits (c.slot - t))) a,
         (xs.filter fun t => (sh t).isNone ∧ t ≠ c.slot).getLastD l) := by
  intro xs
  induction xs with
  | nil => intro a l; rfl
  | cons x xs ih =>
    intro a l
    by_cases hx : (sh x).isNone ∧ x ≠ c.slot
    · rw [List.foldl_cons, if_pos hx, List.filter_cons_of_pos (by simpa using hx),
        List.foldl_cons, ih, List.getLastD_cons]
    · rw [List.foldl_cons, if_neg hx, List.filter_cons_of_neg (by simpa using hx), ih]

theorem foldl_satAdd_eq_sum (f : Nat → Nat) :
    ∀ (xs : List Nat) (a : Nat), a ≤ U64MAX →
      xs.foldl (fun acc t => satAdd acc (f t)) a = min (a + (xs.map f).sum) U64MAX := by
  intro xs
  induction xs with
  | nil =>
    intro a ha
    simpa using (Nat.min_eq_left ha).symm
  | cons x xs ih =>
    intro a ha
    have h1 : satAdd a (f x) ≤ U64MAX := Nat.min_le_right _ _
    rw [List.foldl_cons, ih (satAdd a (f x)) h1]
    simp only [satAdd, List.map_cons, List.sum_cons]
    omega

theorem process_skip_credits_eq (s : VoteState) (va vb : Nat) (c : Clock)
    (sh : Nat → Option Nat) (ge : Nat → Nat) (hle : vb ≤ c.slot)
    (htot : skip_credit_total s va vb c sh ≤ U64MAX) :
    process_skip_credits s va vb c sh ge =
      award_credits s ((eligible_skip_slots s va vb c sh).getLastD 0)
        (skip_credit_total s va vb c sh) ge := by
  simp only [skip_credit_total, eligible_skip_slots] at htot ⊢
  simp only [process_skip_credits]
  rw [if_neg (by omega), skip_fold_eq]
  dsimp only
  rw [foldl_satAdd_eq_sum _ _ 0 (by simp [U64MAX])]
  rw [Nat.zero_add, Nat.min_eq_left htot]

/-- C4 amended: a skip vote that passes the version, signer, range-order,
finalized-overlap and current-slot checks succeeds — provided the epoch of
the latest newly-covered genuinely-skipped slot is not older than the
recorded credit epoch (otherwise credit accounting fails with the
`Unreachable` error, see the counterexample) and the accumulated credit
total does not saturate u64 arithmetic.  It then awards exactly the sum of
`latency_to_credits (current_slot - t)` over the newly-covered slots `t`
(after the previously recorded skip end, clamped to the start slot) that
have no observed hash and precede the current slot, applied as one ledger
update keyed by the epoch of the latest such slot, and sets the recorded
skip range to the vote's range, leaving every other field unchanged. -/
theorem skip_vote_success_spec (s : VoteState) (a : Nat) (c : Clock)
    (sh : Nat → Option Nat) (ge : Nat → Nat) (sv : SkipVoteInstructionData)
    (hv : sv.version = 1) (hs : s.authorized_voter.voter = a)
    (ho : sv.start_slot ≤ sv.end_slot)
    (hf : ¬ (sv.start_slot ≤ s.latest_finalized_slot ∧
        s.latest_finalized_slot ≤ sv.end_slot))
    (hle : sv.end_slot ≤ c.slot)
    (htot : skip_credit_total s sv.start_slot sv.end_slot c sh ≤ U64MAX)
    (hkey : s.epoch_credits.epoch ≤
      ge ((eligible_skip_slots s sv.start_slot sv.end_slot c sh).getLastD 0)) :
    process_skip_vote s a c sh ge sv =
      (none,
        { s with
            epoch_credits := record_credits s.epoch_credits
              (ge ((eligible_skip_slots s sv.start_slot sv.end_slot c sh).getLastD 0))
              (skip_credit_total s sv.start_slot sv.end_slot c sh)
            latest_skip_start_slot := sv.start_slot
            latest_skip_end_slot := sv.end_slot }) := by
  simp only [process_skip_vote]
  rw [if_neg (by simp [hv]), if_neg (by simp [hs]), if_neg (by omega), if_neg hf,
    process_skip_credits_eq s _ _ c sh ge hle htot]
  rcases eq_or_lt_of_le hkey with heq | hlt
  · simp only [award_credits]
    rw [if_pos heq.symm]
    dsimp only
    simp only [record_credits]
    rw [if_pos heq.symm]
  · simp only [award_credits]
    rw [if_neg (by omega), if_neg (by omega)]
    dsimp only
    simp only [record_credits]
    rw [if_neg (by omega)]

/-- Witness for C4 (amended): from a fresh state, skipping `(95, 100)` at
clock slot 100 with an empty observed-hash ledger covers slots 95–99 (slot
100 is the current slot), earning 13 + 14 + 15 + 16 + 16 = 74 credits
recorded for the epoch of slot 99, and records the skip range. -/
theorem skip_vote_success_spec_witness :
    process_skip_vote (VoteState.new ⟨1, 2, 3, 0⟩ ⟨0, 1⟩) 2 ⟨100, 2⟩ (fun _ => none)
        (fun t => t / 32) ⟨1, 95, 100⟩ =
      (none,
        { VoteState.new ⟨1, 2, 3, 0⟩ ⟨0, 1⟩ with
            epoch_credits := record_credits (VoteState.new ⟨1, 2, 3, 0⟩ ⟨0, 1⟩).epoch_credits
              ((fun t => t / 32)
                ((eligible_skip_slots (VoteState.new ⟨1, 2, 3, 0⟩ ⟨0, 1⟩) 95 100 ⟨100, 2⟩
                  (fun _ => none)).getLastD 0))
              (skip_credit_total (VoteState.new ⟨1, 2, 3, 0⟩ ⟨0, 1⟩) 95 100 ⟨100, 2⟩
                (fun _ => none))
            latest_skip_start_slot := 95
            latest_skip_end_slot := 100 }) :=
  skip_vote_success_spec (VoteState.new ⟨1, 2, 3, 0⟩ ⟨0, 1⟩) 2 ⟨100, 2⟩ (fun _ => none)
    (fun t => t / 32) ⟨1, 95, 100⟩ rfl rfl (by decide) (by decide) (by decide) (by decide)
    (by decide)

end AlpenglowVote
